import Mathlib

/-!
Shallow embedding of the temporal context-fact core of the `loop` repository
(`src/loop/captures.py`, `src/loop/context_store.py`, `src/loop/resolver.py`,
`src/loop/gemini_extractor.py`), together with the parts of the Python and
SQLite runtimes those modules rely on: naive `datetime` values and their
`isoformat` rendering, SQLite's bytewise comparison of TEXT values, Python's
`float` coercion, and the loosely typed JSON payloads that flow through the
extraction adapter.
-/

namespace Loop

/-- Bytewise strict comparison of character lists, modelling how SQLite's
default BINARY collation compares TEXT values (memcmp over the UTF-8 bytes;
every stored timestamp is ASCII, where codepoint order and byte order agree). -/
def charsLt : List Char → List Char → Bool
  | _, [] => false
  | [], _ :: _ => true
  | a :: as, b :: bs => if a = b then charsLt as bs else decide (a.toNat < b.toNat)

/-- SQLite `a < b` on two TEXT values. -/
def pyStrLt (a b : String) : Bool := charsLt a.data b.data

/-- SQLite `a <= b` on two TEXT values: the comparison is total, so `a <= b`
holds exactly when `b < a` fails. -/
def pyStrLe (a b : String) : Bool := ! pyStrLt b a

theorem char_toNat_inj {a b : Char} (h : a.toNat = b.toNat) : a = b :=
  Char.ext (UInt32.ext h)

theorem charsLt_irrefl (l : List Char) : charsLt l l = false := by
  induction l with
  | nil => rfl
  | cons a as ih => simp [charsLt, ih]

theorem charsLt_asymm : ∀ {a b : List Char}, charsLt a b = true → charsLt b a = false
  | _, [], h => by simp [charsLt] at h
  | [], _ :: _, _ => rfl
  | x :: xs, y :: ys, h => by
    by_cases hxy : x = y
    · subst hxy
      simp only [charsLt, if_pos rfl] at h ⊢
      exact charsLt_asymm h
    · simp only [charsLt, if_neg hxy] at h
      have hyx : y ≠ x := fun e => hxy e.symm
      simp only [charsLt, if_neg hyx]
      simp only [decide_eq_true_eq] at h
      simp only [decide_eq_false_iff_not]
      omega

theorem charsLt_connex :
    ∀ {a b : List Char}, charsLt a b = false → charsLt b a = false → a = b
  | [], [], _, _ => rfl
  | [], _ :: _, h, _ => by cases h
  | _ :: _, [], _, h => by cases h
  | x :: xs, y :: ys, h1, h2 => by
    by_cases hxy : x = y
    · subst hxy
      simp only [charsLt, if_pos rfl] at h1 h2
      exact congrArg (x :: ·) (charsLt_connex h1 h2)
    · have hyx : y ≠ x := fun e => hxy e.symm
      simp only [charsLt, if_neg hxy] at h1
      simp only [charsLt, if_neg hyx] at h2
      simp only [decide_eq_false_iff_not] at h1 h2
      have hval : x.toNat = y.toNat := by omega
      exact absurd (char_toNat_inj hval) hxy

theorem charsLt_trans :
    ∀ {a b c : List Char}, charsLt a b = true → charsLt b c = true → charsLt a c = true
  | _, [], _, h, _ => by simp [charsLt] at h
  | _, _ :: _, [], _, h => by simp [charsLt] at h
  | [], _ :: _, _ :: _, _, _ => rfl
  | x :: xs, y :: ys, z :: zs, h1, h2 => by
    by_cases hxy : x = y <;> by_cases hyz : y = z
    · subst hxy; subst hyz
      simp only [charsLt, if_pos rfl] at h1 h2 ⊢
      exact charsLt_trans h1 h2
    · subst hxy
      simp only [charsLt, if_neg hyz, decide_eq_true_eq] at h2
      simp only [charsLt, if_neg hyz, decide_eq_true_eq]
      omega
    · subst hyz
      simp only [charsLt, if_neg hxy, decide_eq_true_eq] at h1
      have hxz : x ≠ y := hxy
      simp only [charsLt, if_neg hxz, decide_eq_true_eq]
      omega
    · simp only [charsLt, if_neg hxy, decide_eq_true_eq] at h1
      simp only [charsLt, if_neg hyz, decide_eq_true_eq] at h2
      have hxz : x ≠ z := fun e => by
        have : x.toNat = z.toNat := congrArg Char.toNat e
        omega
      simp only [charsLt, if_neg hxz, decide_eq_true_eq]
      omega

/-- Comparing two lists that start with blocks of equal length is decided by
the blocks when they differ, and by the remainders when they agree. -/
theorem charsLt_append (xs ys r1 r2 : List Char) (h : xs.length = ys.length) :
    charsLt (xs ++ r1) (ys ++ r2) =
      if xs = ys then charsLt r1 r2 else charsLt xs ys := by
  induction xs generalizing ys with
  | nil =>
    cases ys with
    | nil => simp
    | cons b bs => simp at h
  | cons a as ih =>
    cases ys with
    | nil => simp at h
    | cons b bs =>
      simp only [List.length_cons, Nat.succ_inj] at h
      by_cases hab : a = b
      · subst hab
        have lhs : charsLt ((a :: as) ++ r1) ((a :: bs) ++ r2) =
            charsLt (as ++ r1) (bs ++ r2) := by
          simp [charsLt]
        rw [lhs, ih bs h]
        by_cases hs : as = bs
        · subst hs; simp
        · rw [if_neg hs, if_neg (show ¬(a :: as = a :: bs) by simp [hs])]
          simp [charsLt]
      · have hne : a :: as ≠ b :: bs := by simp [hab]
        have lhs : charsLt ((a :: as) ++ r1) ((b :: bs) ++ r2) =
            decide (a.toNat < b.toNat) := by
          simp [charsLt, hab]
        rw [lhs, if_neg hne]
        simp [charsLt, hab]

/-- The decimal digit character for `n % 10`, as produced by C-style `%d`
formatting inside CPython's `datetime.isoformat`. -/
def digitChar : Nat → Char
  | 0 => '0'
  | 1 => '1'
  | 2 => '2'
  | 3 => '3'
  | 4 => '4'
  | 5 => '5'
  | 6 => '6'
  | 7 => '7'
  | 8 => '8'
  | _ => '9'

/-- Zero-padded fixed-width decimal rendering of `n` to exactly `k` digit
characters, as C-style `%0kd` renders any `n < 10^k`. -/
def padNum : Nat → Nat → List Char
  | 0, _ => []
  | k + 1, n => padNum k (n / 10) ++ [digitChar (n % 10)]

theorem padNum_length (k n : Nat) : (padNum k n).length = k := by
  induction k generalizing n with
  | zero => rfl
  | succ k ih => simp [padNum, ih]

theorem digitChar_eq_iff {a b : Nat} (ha : a < 10) (hb : b < 10) :
    digitChar a = digitChar b ↔ a = b := by
  have h : ∀ a < 10, ∀ b < 10, (digitChar a = digitChar b ↔ a = b) := by decide
  exact h a ha b hb

theorem digitChar_toNat_lt_iff {a b : Nat} (ha : a < 10) (hb : b < 10) :
    (digitChar a).toNat < (digitChar b).toNat ↔ a < b := by
  have h : ∀ a < 10, ∀ b < 10, ((digitChar a).toNat < (digitChar b).toNat ↔ a < b) := by
    decide
  exact h a ha b hb

theorem padNum_eq_iff {k a b : Nat} (ha : a < 10 ^ k) (hb : b < 10 ^ k) :
    padNum k a = padNum k b ↔ a = b := by
  induction k generalizing a b with
  | zero =>
    simp only [pow_zero, Nat.lt_one_iff] at ha hb
    subst ha; subst hb; simp [padNum]
  | succ k ih =>
    have ha' : a / 10 < 10 ^ k := by
      rw [Nat.div_lt_iff_lt_mul (by norm_num)]
      calc a < 10 ^ (k + 1) := ha
        _ = 10 ^ k * 10 := by ring
    have hb' : b / 10 < 10 ^ k := by
      rw [Nat.div_lt_iff_lt_mul (by norm_num)]
      calc b < 10 ^ (k + 1) := hb
        _ = 10 ^ k * 10 := by ring
    have hlen : (padNum k (a / 10)).length = (padNum k (b / 10)).length := by
      simp [padNum_length]
    constructor
    · intro h
      simp only [padNum] at h
      rcases List.append_inj h hlen with ⟨hpad, hdig⟩
      have h1 : a / 10 = b / 10 := (ih ha' hb').mp hpad
      have h2 : a % 10 = b % 10 :=
        (digitChar_eq_iff (Nat.mod_lt _ (by norm_num)) (Nat.mod_lt _ (by norm_num))).mp
          (by injection hdig)
      omega
    · intro h; subst h; rfl

theorem charsLt_padNum {k a b : Nat} (ha : a < 10 ^ k) (hb : b < 10 ^ k) :
    charsLt (padNum k a) (padNum k b) = decide (a < b) := by
  induction k generalizing a b with
  | zero =>
    simp only [pow_zero, Nat.lt_one_iff] at ha hb
    subst ha; subst hb; simp [padNum, charsLt]
  | succ k ih =>
    have ha' : a / 10 < 10 ^ k := by
      rw [Nat.div_lt_iff_lt_mul (by norm_num)]
      calc a < 10 ^ (k + 1) := ha
        _ = 10 ^ k * 10 := by ring
    have hb' : b / 10 < 10 ^ k := by
      rw [Nat.div_lt_iff_lt_mul (by norm_num)]
      calc b < 10 ^ (k + 1) := hb
        _ = 10 ^ k * 10 := by ring
    have hma : a % 10 < 10 := Nat.mod_lt _ (by norm_num)
    have hmb : b % 10 < 10 := Nat.mod_lt _ (by norm_num)
    simp only [padNum]
    rw [charsLt_append _ _ _ _ (by simp [padNum_length])]
    by_cases hq : a / 10 = b / 10
    · rw [if_pos ((padNum_eq_iff ha' hb').mpr hq)]
      by_cases hm : a % 10 = b % 10
      · have : a = b := by omega
        subst this
        simp [charsLt_irrefl]
      · have hd : digitChar (a % 10) ≠ digitChar (b % 10) := by
          simp [digitChar_eq_iff hma hmb, hm]
        simp only [charsLt, if_neg hd]
        have hiff : ((digitChar (a % 10)).toNat < (digitChar (b % 10)).toNat) ↔ a < b := by
          rw [digitChar_toNat_lt_iff hma hmb]
          omega
        simp [hiff]
    · rw [if_neg fun e => hq ((padNum_eq_iff ha' hb').mp e), ih ha' hb']
      have hiff : (a / 10 < b / 10) ↔ a < b := by omega
      simp [hiff]

/-- A naive (timezone-free) CPython `datetime.datetime` value, the kind
`datetime.utcnow()` returns and every timestamp in the reference tests uses. -/
structure PyDateTime where
  year : Nat
  month : Nat
  day : Nat
  hour : Nat
  minute : Nat
  second : Nat
  microsecond : Nat
deriving DecidableEq, Repr

/-- The field bounds CPython's `datetime` constructor enforces (`MINYEAR = 1`,
`MAXYEAR = 9999`; the per-month day count is tighter than `31` but the looser
bound suffices for every ordering argument). -/
def PyDateTime.Valid (d : PyDateTime) : Prop :=
  1 ≤ d.year ∧ d.year ≤ 9999 ∧ 1 ≤ d.month ∧ d.month ≤ 12 ∧ 1 ≤ d.day ∧ d.day ≤ 31 ∧
    d.hour ≤ 23 ∧ d.minute ≤ 59 ∧ d.second ≤ 59 ∧ d.microsecond ≤ 999999

instance (d : PyDateTime) : Decidable d.Valid := by
  unfold PyDateTime.Valid; infer_instance

/-- The fractional-seconds tail of `datetime.isoformat()` under the default
`timespec='auto'`: CPython omits the microsecond field entirely when it is
zero and otherwise renders `.%06d`. -/
def microTail (u : Nat) : List Char :=
  if u = 0 then [] else '.' :: padNum 6 u

/-- The character content of CPython's `datetime.isoformat()` on a naive
datetime: `%04d-%02d-%02dT%02d:%02d:%02d` followed by the microsecond tail. -/
def isoChars (d : PyDateTime) : List Char :=
  padNum 4 d.year ++ ('-' :: (padNum 2 d.month ++ ('-' :: (padNum 2 d.day ++
    ('T' :: (padNum 2 d.hour ++ (':' :: (padNum 2 d.minute ++
    (':' :: (padNum 2 d.second ++ microTail d.microsecond))))))))))

/-- `datetime.isoformat()` as a string, the exact value the store binds into
its SQL statements for `valid_from`, `valid_to` and `reference_time`. -/
def PyDateTime.isoformat (d : PyDateTime) : String := ⟨isoChars d⟩

/-- Chronological strict order on naive datetimes: CPython compares the
`(year, month, day, hour, minute, second, microsecond)` tuples
lexicographically. -/
def dtLt (a b : PyDateTime) : Bool :=
  decide (a.year < b.year) || (a.year == b.year &&
   (decide (a.month < b.month) || (a.month == b.month &&
    (decide (a.day < b.day) || (a.day == b.day &&
     (decide (a.hour < b.hour) || (a.hour == b.hour &&
      (decide (a.minute < b.minute) || (a.minute == b.minute &&
       (decide (a.second < b.second) || (a.second == b.second &&
        decide (a.microsecond < b.microsecond))))))))))))

/-- Chronological `a <= b` on naive datetimes. -/
def dtLe (a b : PyDateTime) : Bool := ! dtLt b a

/-- One fixed-width date/time component followed by a separator character:
the comparison reduces to the component first and the remainder on ties. -/
theorem charsLt_component {k xa xb : Nat} (c : Char) (r1 r2 : List Char)
    (ha : xa < 10 ^ k) (hb : xb < 10 ^ k) :
    charsLt (padNum k xa ++ c :: r1) (padNum k xb ++ c :: r2) =
      (decide (xa < xb) || (xa == xb && charsLt r1 r2)) := by
  rw [charsLt_append _ _ _ _ (by simp [padNum_length])]
  by_cases h : xa = xb
  · subst h
    rw [if_pos rfl]
    simp [charsLt]
  · rw [if_neg fun e => h ((padNum_eq_iff ha hb).mp e), charsLt_padNum ha hb]
    simp [h]

/-- Comparing the microsecond tails agrees with comparing microsecond counts:
the omitted tail for zero microseconds is a strict lexical prefix of every
nonzero tail, so omission keeps the ordering chronological. -/
theorem charsLt_microTail {ua ub : Nat} (ha : ua ≤ 999999) (hb : ub ≤ 999999) :
    charsLt (microTail ua) (microTail ub) = decide (ua < ub) := by
  unfold microTail
  by_cases h1 : ua = 0 <;> by_cases h2 : ub = 0
  · subst h1; subst h2; simp [charsLt]
  · subst h1
    rw [if_pos rfl, if_neg h2]
    simp [charsLt]
    omega
  · subst h2
    rw [if_neg h1, if_pos rfl]
    simp [charsLt]
  · rw [if_neg h1, if_neg h2]
    have : charsLt ('.' :: padNum 6 ua) ('.' :: padNum 6 ub) = charsLt (padNum 6 ua) (padNum 6 ub) := by
      simp [charsLt]
    rw [this, charsLt_padNum (by omega) (by omega)]

/-- The trailing seconds-plus-microseconds block compares like the pair
`(second, microsecond)`. -/
theorem charsLt_secondsBlock {s1 s2 u1 u2 : Nat}
    (hs1 : s1 < 10 ^ 2) (hs2 : s2 < 10 ^ 2) (hu1 : u1 ≤ 999999) (hu2 : u2 ≤ 999999) :
    charsLt (padNum 2 s1 ++ microTail u1) (padNum 2 s2 ++ microTail u2) =
      (decide (s1 < s2) || (s1 == s2 && decide (u1 < u2))) := by
  rw [charsLt_append _ _ _ _ (by simp [padNum_length])]
  by_cases h : s1 = s2
  · subst h
    rw [if_pos rfl, charsLt_microTail hu1 hu2]
    simp
  · rw [if_neg fun e => h ((padNum_eq_iff hs1 hs2).mp e), charsLt_padNum hs1 hs2]
    simp [h]

/-- Lexical comparison of two `isoformat` strings computes exactly the
chronological strict order of the underlying naive datetimes. -/
theorem charsLt_isoChars {a b : PyDateTime} (ha : a.Valid) (hb : b.Valid) :
    charsLt (isoChars a) (isoChars b) = dtLt a b := by
  obtain ⟨hy1, hy2, hmo1, hmo2, hd1, hd2, hh, hmi, hs, hu⟩ := ha
  obtain ⟨gy1, gy2, gmo1, gmo2, gd1, gd2, gh, gmi, gs, gu⟩ := hb
  unfold isoChars
  rw [charsLt_component '-' _ _ (show a.year < 10 ^ 4 by omega) (by omega),
    charsLt_component '-' _ _ (show a.month < 10 ^ 2 by omega) (by omega),
    charsLt_component 'T' _ _ (show a.day < 10 ^ 2 by omega) (by omega),
    charsLt_component ':' _ _ (show a.hour < 10 ^ 2 by omega) (by omega),
    charsLt_component ':' _ _ (show a.minute < 10 ^ 2 by omega) (by omega),
    charsLt_secondsBlock (show a.second < 10 ^ 2 by omega) (by omega) hu gu]
  rfl

/-- The Python exception values the embedded code can surface. Constructors
mirror the concrete exception classes the source raises or documents:
`valueError`/`typeError` are the built-ins (e.g. from `float(...)` coercion and
the extractor's dedicated `raise ValueError(...)`), `keyError`/`indexError`/
`attributeError` arise from subscripting and attribute access,
`jsonDecodeError` is `json.JSONDecodeError` from `json.loads`.
`validationError` is the spec's §7 `ValidationError` kind; the source defines
no class of that name and no embedded function produces this constructor — it
exists so claims that mention `ValidationError` are statable. -/
inductive PyErr where
  | valueError (msg : String)
  | typeError (msg : String)
  | keyError (key : String)
  | indexError (msg : String)
  | attributeError (msg : String)
  | jsonDecodeError (msg : String)
  | validationError (msg : String)
deriving DecidableEq, Repr

/-- `loop.captures.ContextFact`: the dataclass, with Python `float` values
modelled as rationals (no claim depends on binary floating-point rounding) and
`datetime` fields as `PyDateTime`. Field defaults mirror the dataclass. -/
structure ContextFact where
  category : String
  detail : String
  time_range : Option String
  location : Option String
  confidence : ℚ
  source_capture_id : String
  valid_from : Option PyDateTime := none
  valid_to : Option PyDateTime := none
deriving DecidableEq, Repr

/-- One row of the `context_facts` table of `context_store.py`: `id` is the
`INTEGER PRIMARY KEY AUTOINCREMENT` column; `valid_from`/`valid_to` hold the
ISO-8601 TEXT the store binds (`effective_time.isoformat()`). -/
structure Row where
  id : Nat
  category : String
  detail : String
  time_range : Option String
  location : Option String
  confidence : ℚ
  source_capture_id : String
  valid_from : String
  valid_to : Option String
deriving DecidableEq, Repr

/-- The persistent state of a `ContextFactsStore` connection: the table rows in
insertion order plus the next AUTOINCREMENT key. -/
structure StoreState where
  rows : List Row
  nextId : Nat
deriving DecidableEq, Repr

namespace ContextFactsStore

/-- A freshly initialized store: empty table, AUTOINCREMENT keys start at 1.
`initialize` runs `CREATE TABLE IF NOT EXISTS`, so re-running it is the
identity on any existing state. -/
def init : StoreState := { rows := [], nextId := 1 }

/-- SQL `col = param` on two nullable TEXT operands: true only when both are
non-NULL and equal (`NULL = x` is NULL, which the WHERE clause treats as
false). -/
def sqlEqNonNull : Option String → Option String → Bool
  | some c, some p => c == p
  | _, _ => false

/-- The NULL-aware identity condition of `upsert_fact`'s UPDATE:
`(col = ? OR (col IS NULL AND ? IS NULL))`. -/
def sqlNullEq (col param : Option String) : Bool :=
  sqlEqNonNull col param || (col == none && param == none)

/-- The identity-tuple part of the UPDATE's WHERE clause:
`category = ? AND detail = ?` plus NULL-aware equality on `time_range` and
`location`. -/
def sameIdentity (r : Row) (f : ContextFact) : Bool :=
  r.category == f.category && r.detail == f.detail &&
    sqlNullEq r.time_range f.time_range && sqlNullEq r.location f.location

/-- The effect of the UPDATE statement on one row: a row satisfying
`valid_to IS NULL` and the identity condition gets `valid_to = ?` (the
effective timestamp); every other row is untouched. -/
def closeRow (ts : String) (f : ContextFact) (r : Row) : Row :=
  if r.valid_to == none && sameIdentity r f then { r with valid_to := some ts } else r

/-- The row the INSERT statement appends: fields copied from the incoming
fact, `valid_from = ?` bound to the effective timestamp, `valid_to` NULL. -/
def newRow (s : StoreState) (f : ContextFact) (ts : String) : Row :=
  { id := s.nextId, category := f.category, detail := f.detail,
    time_range := f.time_range, location := f.location, confidence := f.confidence,
    source_capture_id := f.source_capture_id, valid_from := ts, valid_to := none }

/-- `ContextFactsStore.upsert_fact`: one transaction running the close-out
UPDATE and then the INSERT. The Python parameter `effective_time=None`
defaults to `datetime.utcnow()`; the embedding takes the resolved naive
datetime explicitly. -/
def upsert_fact (s : StoreState) (f : ContextFact) (t : PyDateTime) : StoreState :=
  { rows := s.rows.map (closeRow t.isoformat f) ++ [newRow s f t.isoformat],
    nextId := s.nextId + 1 }

/-- `ContextFactsStore.upsert_many`: a plain `for` loop applying `upsert_fact`
to each fact in order with the one shared effective time. -/
def upsert_many (s : StoreState) (facts : List ContextFact) (t : PyDateTime) : StoreState :=
  facts.foldl (fun st f => upsert_fact st f t) s

/-- The WHERE clause of `get_active_facts`:
`valid_from <= ? AND (valid_to IS NULL OR valid_to > ?)`, with both
placeholders bound to `reference_time.isoformat()` and `valid_to > ?`
evaluating to NULL (hence false) on a NULL `valid_to`. -/
def activePred (refTs : String) (r : Row) : Bool :=
  pyStrLe r.valid_from refTs &&
    (r.valid_to == none ||
      (match r.valid_to with
       | none => false
       | some vt => pyStrLt refTs vt))

/-- `ORDER BY valid_from DESC` as a Boolean sort relation on rows. -/
def rowGeByValidFrom (r1 r2 : Row) : Bool := pyStrLe r2.valid_from r1.valid_from

end ContextFactsStore

/-- Insert an element into a sorted list (insertion-sort step; structurally
recursive so that concrete query results evaluate inside the kernel). -/
def insertSortedBy {α : Type} (le : α → α → Bool) (a : α) : List α → List α
  | [] => [a]
  | b :: l => if le a b then a :: b :: l else b :: insertSortedBy le a l

/-- Sorting by a Boolean total preorder: the model of `ORDER BY` (a sorted
permutation of the input; ties keep input order, which SQL leaves
unspecified). -/
def sortByBool {α : Type} (le : α → α → Bool) : List α → List α
  | [] => []
  | b :: l => insertSortedBy le b (sortByBool le l)

namespace ContextFactsStore

/-- The row set the SELECT of `get_active_facts` produces: the table filtered
by the WHERE clause and ordered by `valid_from` descending. -/
def activeRows (s : StoreState) (refTs : String) : List Row :=
  sortByBool rowGeByValidFrom (s.rows.filter (activePred refTs))

end ContextFactsStore

/-- Decimal digit value of a character, if any. -/
def digitVal? (c : Char) : Option Nat :=
  if 48 ≤ c.toNat && c.toNat ≤ 57 then some (c.toNat - 48) else none

/-- Read exactly `k` leading digit characters into a number, returning the
remaining input. -/
def readFixedAux : Nat → Nat → List Char → Option (Nat × List Char)
  | 0, acc, cs => some (acc, cs)
  | _ + 1, _, [] => none
  | k + 1, acc, c :: cs =>
    match digitVal? c with
    | some d => readFixedAux k (acc * 10 + d) cs
    | none => none

/-- Consume one expected character. -/
def expectChar (c : Char) : List Char → Option (List Char)
  | [] => none
  | x :: xs => if x = c then some xs else none

/-- Modelled subset of CPython's `datetime.fromisoformat`, covering exactly
the strings `datetime.isoformat()` emits for naive datetimes (the only strings
the store ever writes into `valid_from`/`valid_to`): `YYYY-MM-DDTHH:MM:SS`
with an optional `.ffffff` microsecond tail. Anything else is rejected, as
`fromisoformat` rejects malformed input with a `ValueError`. -/
def fromisoChars (cs : List Char) : Option PyDateTime := do
  let (y, cs) ← readFixedAux 4 0 cs
  let cs ← expectChar '-' cs
  let (mo, cs) ← readFixedAux 2 0 cs
  let cs ← expectChar '-' cs
  let (d, cs) ← readFixedAux 2 0 cs
  let cs ← expectChar 'T' cs
  let (h, cs) ← readFixedAux 2 0 cs
  let cs ← expectChar ':' cs
  let (mi, cs) ← readFixedAux 2 0 cs
  let cs ← expectChar ':' cs
  let (sec, cs) ← readFixedAux 2 0 cs
  match cs with
  | [] => some ⟨y, mo, d, h, mi, sec, 0⟩
  | '.' :: rest =>
    match readFixedAux 6 0 rest with
    | some (us, []) => some ⟨y, mo, d, h, mi, sec, us⟩
    | _ => none
  | _ => none

/-- `datetime.fromisoformat` with Python's failure behavior: a `ValueError`
on input it cannot parse. -/
def fromisoformatE (s : String) : Except PyErr PyDateTime :=
  match fromisoChars s.data with
  | some d => Except.ok d
  | none => Except.error (PyErr.valueError ("Invalid isoformat string: " ++ s))

namespace ContextFactsStore

/-- `ContextFactsStore._row_to_fact`: rebuild a `ContextFact` from a row,
parsing the stored ISO text back into datetimes (`valid_to` only when the
stored value is non-NULL/non-empty, per the `if row["valid_to"]` truthiness
test). -/
def row_to_fact (r : Row) : Except PyErr ContextFact := do
  let vf ← fromisoformatE r.valid_from
  let vt ← match r.valid_to with
    | none => Except.ok (none : Option PyDateTime)
    | some s => (fromisoformatE s).map some
  Except.ok
    { category := r.category, detail := r.detail, time_range := r.time_range,
      location := r.location, confidence := r.confidence,
      source_capture_id := r.source_capture_id, valid_from := some vf, valid_to := vt }

/-- `ContextFactsStore.get_active_facts`: run the snapshot SELECT at the given
reference time and map every result row through `_row_to_fact`. The Python
`reference_time=None` default (`datetime.utcnow()`) is taken as an explicit
argument. -/
def get_active_facts (s : StoreState) (t : PyDateTime) : Except PyErr (List ContextFact) :=
  (activeRows s t.isoformat).mapM row_to_fact

end ContextFactsStore

namespace AgendaResolver

/-- `AgendaResolver.active_schedule`: the active facts whose category is
exactly `"schedule"`. -/
def active_schedule (s : StoreState) (t : PyDateTime) : Except PyErr (List ContextFact) :=
  (ContextFactsStore.get_active_facts s t).map
    (fun facts => facts.filter (fun f => f.category == "schedule"))

/-- The fixed category set of `agenda_overview`. -/
def agendaCategories : List String := ["schedule", "availability", "agenda", "reminder"]

/-- `AgendaResolver.agenda_overview`: the active facts whose category lies in
`{"schedule", "availability", "agenda", "reminder"}`. -/
def agenda_overview (s : StoreState) (t : PyDateTime) : Except PyErr (List ContextFact) :=
  (ContextFactsStore.get_active_facts s t).map
    (fun facts => facts.filter (fun f => agendaCategories.contains f.category))

end AgendaResolver

/-- A loosely typed Python/JSON value as it flows through the extraction
adapter: `json.loads` output and the payload mappings handed to
`ContextFact.from_dict`. `pynone` is Python `None` / JSON `null`. -/
inductive PyVal where
  | str (s : String)
  | int (n : Int)
  | float (q : ℚ)
  | bool (b : Bool)
  | pynone
  | list (xs : List PyVal)
  | dict (kvs : List (String × PyVal))

/-- Python `dict.get(key)`: the first (unique) binding for the key, if any. -/
def pyDictGet (kvs : List (String × PyVal)) (k : String) : Option PyVal :=
  List.lookup k kvs

/-- Python `dict.get(key, default)`. -/
def pyDictGetD (kvs : List (String × PyVal)) (k : String) (d : PyVal) : PyVal :=
  (List.lookup k kvs).getD d

/-- Digit characters taken greedily from the head of the input, with the
remaining input. -/
def takeDigits : List Char → List Nat × List Char
  | [] => ([], [])
  | c :: cs =>
    match digitVal? c with
    | some d =>
      let (ds, rest) := takeDigits cs
      (d :: ds, rest)
    | none => ([], c :: cs)

/-- The natural number a digit sequence denotes. -/
def natOfDigits (ds : List Nat) : Nat := ds.foldl (fun acc d => acc * 10 + d) 0

/-- The fraction in `[0, 1)` a post-decimal-point digit sequence denotes. -/
def fracOfDigits (ds : List Nat) : ℚ := ds.foldr (fun d acc => ((d : ℚ) + acc) / 10) 0

/-- Modelled subset of CPython's `float(<str>)` string grammar: an optional
sign and decimal digits with an optional fractional part. Exponents,
`inf`/`nan`, underscores and surrounding whitespace are outside the model;
every claim only involves strings that are plainly numeric or plainly not. -/
def pyFloatOfChars (cs : List Char) : Option ℚ :=
  let (sgn, cs1) : ℚ × List Char :=
    match cs with
    | '+' :: rest => (1, rest)
    | '-' :: rest => (-1, rest)
    | _ => (1, cs)
  let (ip, cs2) := takeDigits cs1
  match cs2 with
  | [] => if ip.isEmpty then none else some (sgn * natOfDigits ip)
  | '.' :: cs3 =>
    let (fp, cs4) := takeDigits cs3
    if cs4.isEmpty && !(ip.isEmpty && fp.isEmpty) then
      some (sgn * ((natOfDigits ip : ℚ) + fracOfDigits fp))
    else none
  | _ => none

/-- The Python built-in `float(...)` on the values that can appear in a
payload: numbers and booleans coerce, numeric strings parse, a non-numeric
string raises `ValueError`, and a value of non-coercible type (`None`, a
list, a dict) raises `TypeError`. -/
def pyFloat : PyVal → Except PyErr ℚ
  | .float q => .ok q
  | .int n => .ok (n : ℚ)
  | .bool b => .ok (if b then 1 else 0)
  | .str s =>
    match pyFloatOfChars s.data with
    | some q => .ok q
    | none => .error (.valueError ("could not convert string to float: " ++ s))
  | .pynone => .error (.typeError "float() argument must be a string or a real number, not NoneType")
  | .list _ => .error (.typeError "float() argument must be a string or a real number, not list")
  | .dict _ => .error (.typeError "float() argument must be a string or a real number, not list")

namespace ContextFact

/-- Embedding restriction for the untyped dataclass: the `category`/`detail`
fields are annotated `str` and every claim involves string or missing values,
so the embedding requires the payload value to be a string (the Python
dataclass itself would store any value unchanged). -/
def asStrField : PyVal → Except PyErr String
  | .str s => .ok s
  | _ => .error (.typeError "embedding: string-typed field expected")

/-- `payload.get(key)` for the `Optional[str]` fields: a missing key and a
JSON `null` both become `None`; a string stays; other types fall under the
same embedding restriction as `asStrField`. -/
def asOptStrField : Option PyVal → Except PyErr (Option String)
  | none => .ok none
  | some .pynone => .ok none
  | some (.str s) => .ok (some s)
  | some _ => .error (.typeError "embedding: string-typed field expected")

/-- `loop.captures.ContextFact.from_dict`: build a candidate fact from a
loosely typed payload mapping. Missing `category` defaults to the string
`"unspecified"`, missing `detail` to `""`, missing `confidence` to `0.0`;
`confidence` goes through the `float(...)` built-in, whose exception (if any)
propagates to the caller untouched. -/
def from_dict (payload : List (String × PyVal)) (source_capture_id : String)
    (timestamp : Option PyDateTime) : Except PyErr ContextFact := do
  let category ← asStrField (pyDictGetD payload "category" (.str "unspecified"))
  let detail ← asStrField (pyDictGetD payload "detail" (.str ""))
  let time_range ← asOptStrField (pyDictGet payload "time_range")
  let location ← asOptStrField (pyDictGet payload "location")
  let confidence ← pyFloat (pyDictGetD payload "confidence" (.float 0))
  Except.ok
    { category := category, detail := detail, time_range := time_range,
      location := location, confidence := confidence,
      source_capture_id := source_capture_id, valid_from := timestamp, valid_to := none }

end ContextFact

/-- Python subscription `container[key]` for the shapes reachable inside the
extractor: dict lookup by string key (`KeyError` on a miss, `KeyError` also
for a non-string key against our string-keyed dicts), list and string indexing
by int with negative-index wrapping (`IndexError` out of range, `TypeError`
for a non-int index), and `TypeError` for non-subscriptable values. -/
def pyGetItem : PyVal → PyVal → Except PyErr PyVal
  | .dict kvs, .str k =>
    match List.lookup k kvs with
    | some v => .ok v
    | none => .error (.keyError k)
  | .dict _, _ => .error (.keyError "non-string key")
  | .list xs, .int n =>
    let i := if n < 0 then n + xs.length else n
    if h : 0 ≤ i ∧ i.toNat < xs.length then .ok (xs.get ⟨i.toNat, h.2⟩)
    else .error (.indexError "list index out of range")
  | .list _, _ => .error (.typeError "list indices must be integers or slices")
  | .str s, .int n =>
    let i := if n < 0 then n + s.data.length else n
    if h : 0 ≤ i ∧ i.toNat < s.data.length then .ok (.str ⟨[s.data.get ⟨i.toNat, h.2⟩]⟩)
    else .error (.indexError "string index out of range")
  | .str _, _ => .error (.typeError "string indices must be integers")
  | .int _, _ => .error (.typeError "object is not subscriptable")
  | .float _, _ => .error (.typeError "object is not subscriptable")
  | .bool _, _ => .error (.typeError "object is not subscriptable")
  | .pynone, _ => .error (.typeError "object is not subscriptable")

namespace GeminiFactExtractor

/-- The expression inside `_extract_text`'s `try` block:
`payload["candidates"][0]["content"]["parts"][0]["text"]`. -/
def extract_text_attempt (payload : PyVal) : Except PyErr PyVal := do
  let v1 ← pyGetItem payload (.str "candidates")
  let v2 ← pyGetItem v1 (.int 0)
  let v3 ← pyGetItem v2 (.str "content")
  let v4 ← pyGetItem v3 (.str "parts")
  let v5 ← pyGetItem v4 (.int 0)
  pyGetItem v5 (.str "text")

/-- The dedicated error `_extract_text` raises on a malformed response
envelope: `ValueError("Unexpected Gemini response structure")` at
`gemini_extractor.py:77`. The spec's §7 taxonomy names this error kind
`MalformedResponseError`. -/
def MalformedResponseError : PyErr := .valueError "Unexpected Gemini response structure"

/-- The exception classes `_extract_text`'s `except` clause catches:
`(KeyError, IndexError, TypeError)`. -/
def isStructuralErr : PyErr → Bool
  | .keyError _ => true
  | .indexError _ => true
  | .typeError _ => true
  | _ => false

/-- `GeminiFactExtractor._extract_text`: the subscription chain with its
structural failures converted into the one dedicated error. -/
def extract_text (payload : PyVal) : Except PyErr PyVal :=
  match extract_text_attempt payload with
  | .ok v => .ok v
  | .error e => if isStructuralErr e then .error MalformedResponseError else .error e

end GeminiFactExtractor

/-- Whitespace skipping between JSON tokens. -/
def jsonSkipWs (cs : List Char) : List Char :=
  cs.dropWhile (fun c => c == ' ' || c == '\t' || c == '\n' || c == '\r')

/-- JSON string body after the opening quote, up to the closing quote.
Escape sequences are outside the modelled subset (no claim involves them). -/
def parseJsonString : List Char → Option (String × List Char)
  | [] => none
  | '"' :: rest => some ("", rest)
  | '\\' :: _ => none
  | c :: rest =>
    match parseJsonString rest with
    | some (s, r) => some (⟨c :: s.data⟩, r)
    | none => none

/-- A JSON number without exponent: `json.loads` yields a Python `int` for an
integer literal and a `float` when a fractional part is present. -/
def parseJsonNumber (cs : List Char) : Option (PyVal × List Char) :=
  let (neg, cs1) : Bool × List Char :=
    match cs with
    | '-' :: r => (true, r)
    | _ => (false, cs)
  match takeDigits cs1 with
  | ([], _) => none
  | (ip, cs2) =>
    match cs2 with
    | '.' :: cs3 =>
      match takeDigits cs3 with
      | ([], _) => none
      | (fp, cs4) =>
        let q : ℚ := (natOfDigits ip : ℚ) + fracOfDigits fp
        some (.float (if neg then -q else q), cs4)
    | _ =>
      let n : Int := (natOfDigits ip : Int)
      some (.int (if neg then -n else n), cs2)

/-- Object member insertion with Python's duplicate-key behavior (the later
binding wins), keeping keys unique. -/
def dictInsert (kvs : List (String × PyVal)) (k : String) (v : PyVal) :
    List (String × PyVal) :=
  if kvs.any (fun p => p.1 == k) then
    kvs.map (fun p => if p.1 == k then (k, v) else p)
  else kvs ++ [(k, v)]

mutual

/-- Recursive-descent JSON value parser (fuel-bounded; the fuel argument only
guards termination and `jsonLoads` supplies more than any input can use).
Covers the subset of JSON the adapter contract exercises: `null`, booleans,
escape-free strings, exponent-free numbers, arrays and objects. -/
def parseJson : Nat → List Char → Option (PyVal × List Char)
  | 0, _ => none
  | fuel + 1, cs0 =>
    match jsonSkipWs cs0 with
    | 'n' :: 'u' :: 'l' :: 'l' :: rest => some (PyVal.pynone, rest)
    | 't' :: 'r' :: 'u' :: 'e' :: rest => some (PyVal.bool true, rest)
    | 'f' :: 'a' :: 'l' :: 's' :: 'e' :: rest => some (PyVal.bool false, rest)
    | '"' :: rest =>
      match parseJsonString rest with
      | some (s, r) => some (PyVal.str s, r)
      | none => none
    | '[' :: rest =>
      match jsonSkipWs rest with
      | ']' :: r => some (PyVal.list [], r)
      | rest1 => parseJsonElems fuel rest1 []
    | '{' :: rest =>
      match jsonSkipWs rest with
      | '}' :: r => some (PyVal.dict [], r)
      | rest1 => parseJsonMembers fuel rest1 []
    | cs => parseJsonNumber cs

/-- Array elements after the opening bracket (non-empty case). -/
def parseJsonElems : Nat → List Char → List PyVal → Option (PyVal × List Char)
  | 0, _, _ => none
  | fuel + 1, cs, acc =>
    match parseJson fuel cs with
    | none => none
    | some (v, rest) =>
      match jsonSkipWs rest with
      | ',' :: r => parseJsonElems fuel r (v :: acc)
      | ']' :: r => some (PyVal.list (v :: acc).reverse, r)
      | _ => none

/-- Object members after the opening brace (non-empty case). -/
def parseJsonMembers : Nat → List Char → List (String × PyVal) →
    Option (PyVal × List Char)
  | 0, _, _ => none
  | fuel + 1, cs, acc =>
    match jsonSkipWs cs with
    | '"' :: rest =>
      match parseJsonString rest with
      | none => none
      | some (k, r1) =>
        match jsonSkipWs r1 with
        | ':' :: r2 =>
          match parseJson fuel r2 with
          | none => none
          | some (v, r3) =>
            match jsonSkipWs r3 with
            | ',' :: r4 => parseJsonMembers fuel r4 (dictInsert acc k v)
            | '}' :: r4 => some (PyVal.dict (dictInsert acc k v), r4)
            | _ => none
        | _ => none
    | _ => none

end

/-- Python `json.loads`: parse the full input as one JSON document; trailing
non-whitespace or unparsable input raises `json.JSONDecodeError` (a
`ValueError` subclass with its own class identity). -/
def jsonLoads (s : String) : Except PyErr PyVal :=
  match parseJson (2 * s.data.length + 2) s.data with
  | some (v, rest) =>
    if (jsonSkipWs rest).isEmpty then .ok v else .error (.jsonDecodeError "Extra data")
  | none => .error (.jsonDecodeError "Expecting value")

namespace GeminiFactExtractor

/-- `GeminiFactExtractor.extract`, modelled from the point where the HTTP
call has returned with a 2xx status and `response.json()` has produced
`payload` (the transport itself — `http.post`, the 15-second timeout,
`raise_for_status` — is environment interaction outside the shallow
embedding, and its failures surface before this point). The source's
`capture` argument contributes only `capture.capture_id` after that point,
which the embedding takes directly; `request_time=None` defaulting to
`datetime.utcnow()` is likewise taken resolved. -/
def extract (payload : PyVal) (capture_id : String) (request_time : PyDateTime) :
    Except PyErr (List ContextFact) := do
  let textV ← extract_text payload
  let text ← match textV with
    | .str s => Except.ok s
    | _ => Except.error (PyErr.typeError "the JSON object must be str, bytes or bytearray")
  let parsed ← jsonLoads text
  let facts_payload :=
    match parsed with
    | .dict kvs => pyDictGetD kvs "facts" (.list [])
    | other => other
  let items ← match facts_payload with
    | .list xs => Except.ok xs
    | .str s => Except.ok (s.data.map (fun c => PyVal.str ⟨[c]⟩))
    | .dict kvs => Except.ok (kvs.map (fun p => PyVal.str p.1))
    | _ => Except.error (PyErr.typeError "object is not iterable")
  items.mapM (fun item => do
    let kvs ← match item with
      | .dict kvs => Except.ok kvs
      | _ => Except.error (PyErr.attributeError "object has no attribute get")
    ContextFact.from_dict kvs capture_id (some request_time))

end GeminiFactExtractor

/-- The identity tuple `(category, detail, time_range, location)` of a stored
record. -/
def identTuple (r : Row) : String × String × Option String × Option String :=
  (r.category, r.detail, r.time_range, r.location)

/-- The identity tuple of an incoming candidate fact. -/
def factIdent (f : ContextFact) : String × String × Option String × Option String :=
  (f.category, f.detail, f.time_range, f.location)

/-- The spec §3 invariant: at most one record per identity tuple has
`valid_to = NULL` at any time, phrased positionally over the table rows. -/
def ActiveUnique (s : StoreState) : Prop :=
  s.rows.Pairwise (fun r1 r2 =>
    r1.valid_to = none → r2.valid_to = none → identTuple r1 ≠ identTuple r2)

/-- Store states reachable from a fresh store by write operations. The only
writes the store exposes are `upsert_fact` and `upsert_many`, and the latter
is a `for` loop over the former, so closure under `upsert_fact` covers both
(`Reachable.upsert_many` below makes that explicit). -/
inductive Reachable : StoreState → Prop
  | init : Reachable ContextFactsStore.init
  | upsert (s : StoreState) (f : ContextFact) (t : PyDateTime) :
      Reachable s → Reachable (ContextFactsStore.upsert_fact s f t)

/-- `s'` arises from `s` by some sequence of store write operations. -/
inductive Reaches : StoreState → StoreState → Prop
  | refl (s : StoreState) : Reaches s s
  | upsert (s1 s2 : StoreState) (f : ContextFact) (t : PyDateTime) :
      Reaches s1 s2 → Reaches s1 (ContextFactsStore.upsert_fact s2 f t)

/-- Modelled execution of `upsert_many` in which individual `upsert_fact`
transactions may fail: each fact carries a flag saying whether its
one-statement-pair transaction raises (an underlying storage failure). A
raising transaction is rolled back by its own `with self._connection` block
and the exception propagates out of the `for` loop, so processing stops.
The result is the committed state plus whether a failure aborted the run. -/
def upsert_many_run : StoreState → List (ContextFact × Bool) → PyDateTime → StoreState × Bool
  | s, [], _ => (s, false)
  | s, (f, fails) :: rest, t =>
    if fails then (s, true)
    else upsert_many_run (ContextFactsStore.upsert_fact s f t) rest t

/-- Whether a `from_dict` outcome is the spec's dedicated `ValidationError`
kind. -/
def resultHasValidationError (r : Except PyErr ContextFact) : Bool :=
  match r with
  | .error (.validationError _) => true
  | _ => false

/-!
Concrete values used by witnesses, drawn from the repository's reference
tests (`tests/test_pipeline.py`).
-/

/-- 2024-01-01 09:00:00, the reference tests' `t1`. -/
def tW1 : PyDateTime := ⟨2024, 1, 1, 9, 0, 0, 0⟩

/-- 2024-01-01 11:00:00, the reference tests' `t2 = t1 + 2h`. -/
def tW2 : PyDateTime := ⟨2024, 1, 1, 11, 0, 0, 0⟩

/-- 2024-01-01 11:01:00, the reference tests' query instant `t2 + 1min`. -/
def tW3 : PyDateTime := ⟨2024, 1, 1, 11, 1, 0, 0⟩

/-- The reference tests' `fact_v1`. -/
def factA : ContextFact :=
  { category := "schedule", detail := "Works Friday", time_range := some "Fridays 3pm",
    location := some "HQ", confidence := 0.8, source_capture_id := "cap-a" }

/-- The reference tests' `fact_v2`: same identity tuple, new confidence and
source capture. -/
def factB : ContextFact :=
  { category := "schedule", detail := "Works Friday", time_range := some "Fridays 3pm",
    location := some "HQ", confidence := 0.9, source_capture_id := "cap-b" }

/-- State after upserting `factA` at `tW1` into a fresh store. -/
def stW1 : StoreState := ContextFactsStore.upsert_fact ContextFactsStore.init factA tW1

/-- State after additionally upserting `factB` at `tW2`. -/
def stW2 : StoreState := ContextFactsStore.upsert_fact stW1 factB tW2

/-- The reference tests' agenda fact. -/
def agendaFactW : ContextFact :=
  { category := "agenda", detail := "Prepare quarterly review", time_range := some "Q1",
    location := none, confidence := 0.85, source_capture_id := "cap-1" }

/-- The reference tests' out-of-scope fact. -/
def noiseFactW : ContextFact :=
  { category := "other", detail := "Unrelated note", time_range := none,
    location := none, confidence := 0.5, source_capture_id := "cap-2" }

/-- State after `upsert_many` of the two resolver-test facts at `tW1`. -/
def resolverStW : StoreState :=
  ContextFactsStore.upsert_many ContextFactsStore.init [agendaFactW, noiseFactW] tW1

/-- The facts `get_active_facts` yields on `resolverStW` just after `tW1`. -/
def resolverFactsW : List ContextFact :=
  [{ agendaFactW with valid_from := some tW1 }, { noiseFactW with valid_from := some tW1 }]

/-- A payload whose `confidence` is Python `None`, so `float(None)` raises. -/
def c6payload : List (String × PyVal) :=
  [("category", PyVal.str "schedule"), ("detail", PyVal.str "On call"),
   ("confidence", PyVal.pynone)]

/-- A well-formed response envelope whose inner JSON object has no `facts`
key. -/
def c10payload : PyVal :=
  PyVal.dict [("candidates", PyVal.list [PyVal.dict [("content", PyVal.dict
    [("parts", PyVal.list [PyVal.dict [("text", PyVal.str "\x7b\"note\": 1\x7d")]])])]])]

/-!
## Theorems
-/

/-- C8: for every pair of timestamps as the store stores them — ISO-8601 text
produced by `datetime.isoformat()` on the naive datetimes the store receives —
lexical (bytewise TEXT) comparison orders them exactly as chronological order
of the underlying datetimes, so the SQL comparisons
`valid_from <= reference_time` and `valid_to > reference_time` are
chronologically correct. -/
theorem isoformat_lexical_agrees_with_chronological (d1 d2 : PyDateTime)
    (h1 : d1.Valid) (h2 : d2.Valid) :
    pyStrLt d1.isoformat d2.isoformat = dtLt d1 d2 ∧
      pyStrLe d1.isoformat d2.isoformat = dtLe d1 d2 := by
  refine ⟨charsLt_isoChars h1 h2, ?_⟩
  show (! pyStrLt d2.isoformat d1.isoformat) = (! dtLt d2 d1)
  rw [show pyStrLt d2.isoformat d1.isoformat = dtLt d2 d1 from charsLt_isoChars h2 h1]

theorem charsLe_trans' {x y z : List Char} (h1 : charsLt y x = false)
    (h2 : charsLt z y = false) : charsLt z x = false := by
  cases hzx : charsLt z x with
  | false => rfl
  | true =>
    exfalso
    cases hxy : charsLt x y with
    | true =>
      have : charsLt z y = true := charsLt_trans hzx hxy
      simp [h2] at this
    | false =>
      have hxeq : x = y := charsLt_connex hxy h1
      have : charsLt z y = true := hxeq ▸ hzx
      simp [h2] at this

theorem charsLe_total' (x y : List Char) : ((!charsLt y x) || (!charsLt x y)) = true := by
  cases h : charsLt x y with
  | true => simp [charsLt_asymm h]
  | false => simp [h]

theorem rowGe_trans (a b c : Row) :
    ContextFactsStore.rowGeByValidFrom a b = true →
    ContextFactsStore.rowGeByValidFrom b c = true →
    ContextFactsStore.rowGeByValidFrom a c = true := by
  intro h1 h2
  simp only [ContextFactsStore.rowGeByValidFrom, pyStrLe, pyStrLt, Bool.not_eq_true'] at h1 h2 ⊢
  exact charsLe_trans' h2 h1

theorem rowGe_total (a b : Row) :
    (ContextFactsStore.rowGeByValidFrom a b || ContextFactsStore.rowGeByValidFrom b a) = true := by
  simp only [ContextFactsStore.rowGeByValidFrom, pyStrLe, pyStrLt]
  exact charsLe_total' b.valid_from.data a.valid_from.data

theorem insertSortedBy_perm {α : Type} (le : α → α → Bool) (a : α) :
    ∀ l : List α, (insertSortedBy le a l).Perm (a :: l)
  | [] => List.Perm.refl _
  | b :: l => by
    by_cases h : le a b = true
    · simp [insertSortedBy, h]
    · have hp := insertSortedBy_perm le a l
      simp only [insertSortedBy, if_neg h]
      exact (hp.cons b).trans (List.Perm.swap a b l)

theorem sortByBool_perm {α : Type} (le : α → α → Bool) :
    ∀ l : List α, (sortByBool le l).Perm l
  | [] => List.Perm.refl _
  | b :: l => (insertSortedBy_perm le b _).trans ((sortByBool_perm le l).cons b)

theorem mem_insertSortedBy {α : Type} {le : α → α → Bool} {a x : α} {l : List α} :
    x ∈ insertSortedBy le a l ↔ x = a ∨ x ∈ l := by
  rw [(insertSortedBy_perm le a l).mem_iff, List.mem_cons]

theorem insertSortedBy_pairwise {α : Type} {le : α → α → Bool}
    (htot : ∀ x y, le x y = false → le y x = true)
    (htrans : ∀ x y z, le x y = true → le y z = true → le x z = true)
    (a : α) : ∀ {l : List α}, l.Pairwise (le · · = true) →
      (insertSortedBy le a l).Pairwise (le · · = true)
  | [], _ => by simp [insertSortedBy]
  | b :: l, hp => by
    rcases List.pairwise_cons.mp hp with ⟨hb, hl⟩
    by_cases h : le a b = true
    · simp only [insertSortedBy, if_pos h]
      refine List.pairwise_cons.mpr ⟨?_, hp⟩
      intro x hx
      rcases List.mem_cons.mp hx with rfl | hx
      · exact h
      · exact htrans a b x h (hb x hx)
    · simp only [insertSortedBy, if_neg h]
      refine List.pairwise_cons.mpr ⟨?_, insertSortedBy_pairwise htot htrans a hl⟩
      intro x hx
      rcases mem_insertSortedBy.mp hx with hxa | hx
      · subst hxa
        have hab : le x b = false := by
          cases hv : le x b
          · rfl
          · exact absurd hv h
        exact htot x b hab
      · exact hb x hx

theorem sortByBool_pairwise {α : Type} {le : α → α → Bool}
    (htot : ∀ x y, le x y = false → le y x = true)
    (htrans : ∀ x y z, le x y = true → le y z = true → le x z = true) :
    ∀ l : List α, (sortByBool le l).Pairwise (le · · = true)
  | [] => List.Pairwise.nil
  | b :: l => insertSortedBy_pairwise htot htrans b (sortByBool_pairwise htot htrans l)

theorem activePred_iff (refTs : String) (r : Row) :
    ContextFactsStore.activePred refTs r = true ↔
      (pyStrLe r.valid_from refTs = true ∧
        (r.valid_to = none ∨ ∃ vt, r.valid_to = some vt ∧ pyStrLt refTs vt = true)) := by
  unfold ContextFactsStore.activePred
  cases hvt : r.valid_to with
  | none => simp
  | some vt => simp [hvt]

/-- C2: for every reference time, the SELECT of `get_active_facts` returns
exactly the stored records with `valid_from <= reference_time` and
(`valid_to` NULL or `valid_to > reference_time`), ordered by `valid_from`
descending (in SQLite's lexical TEXT order, which C8 shows is chronological
order on stored timestamps), and `get_active_facts` is exactly those rows
mapped through `_row_to_fact`. -/
theorem get_active_facts_exactly_active_ordered (s : StoreState) (t : PyDateTime) :
    (∀ r : Row, r ∈ ContextFactsStore.activeRows s t.isoformat ↔
      (r ∈ s.rows ∧ pyStrLe r.valid_from t.isoformat = true ∧
        (r.valid_to = none ∨ ∃ vt, r.valid_to = some vt ∧ pyStrLt t.isoformat vt = true))) ∧
    (ContextFactsStore.activeRows s t.isoformat).Pairwise
      (fun r1 r2 => pyStrLe r2.valid_from r1.valid_from = true) ∧
    ContextFactsStore.get_active_facts s t =
      (ContextFactsStore.activeRows s t.isoformat).mapM ContextFactsStore.row_to_fact := by
  refine ⟨?_, ?_, rfl⟩
  · intro r
    unfold ContextFactsStore.activeRows
    rw [(sortByBool_perm _ _).mem_iff, List.mem_filter, activePred_iff]
  · refine sortByBool_pairwise ?_ (fun a b c => rowGe_trans a b c) _
    intro x y hxy
    have := rowGe_total x y
    rw [hxy] at this
    simpa using this

theorem sqlNullEq_iff (a b : Option String) :
    ContextFactsStore.sqlNullEq a b = true ↔ a = b := by
  cases a <;> cases b <;>
    simp [ContextFactsStore.sqlNullEq, ContextFactsStore.sqlEqNonNull]

theorem sameIdentity_iff (r : Row) (f : ContextFact) :
    ContextFactsStore.sameIdentity r f = true ↔ identTuple r = factIdent f := by
  unfold ContextFactsStore.sameIdentity identTuple factIdent
  simp only [Bool.and_eq_true, beq_iff_eq, sqlNullEq_iff, Prod.mk.injEq]
  tauto

theorem identTuple_newRow (s : StoreState) (f : ContextFact) (ts : String) :
    identTuple (ContextFactsStore.newRow s f ts) = factIdent f := rfl

theorem closeRow_identTuple (ts : String) (f : ContextFact) (r : Row) :
    identTuple (ContextFactsStore.closeRow ts f r) = identTuple r := by
  unfold ContextFactsStore.closeRow
  split <;> rfl

theorem closeRow_of_active_match {ts : String} {f : ContextFact} {r : Row}
    (h1 : r.valid_to = none) (h2 : identTuple r = factIdent f) :
    ContextFactsStore.closeRow ts f r = { r with valid_to := some ts } := by
  unfold ContextFactsStore.closeRow
  rw [if_pos]
  simp [h1, (sameIdentity_iff r f).mpr h2]

theorem closeRow_active_inv {ts : String} {f : ContextFact} {r : Row}
    (h : (ContextFactsStore.closeRow ts f r).valid_to = none) :
    ContextFactsStore.closeRow ts f r = r ∧ r.valid_to = none := by
  unfold ContextFactsStore.closeRow at h ⊢
  by_cases hc : (r.valid_to == none && ContextFactsStore.sameIdentity r f) = true
  · rw [if_pos hc] at h
    simp at h
  · rw [if_neg hc] at h ⊢
    exact ⟨rfl, h⟩

/-- C1: at most one record per identity tuple is active (`valid_to` NULL) in
every reachable store state, and after any `upsert_fact` call the records
that are active for the upserted fact's identity are exactly the one newly
inserted record. -/
theorem upsert_unique_active :
    (∀ s, Reachable s → ActiveUnique s) ∧
    (∀ (s : StoreState) (f : ContextFact) (t : PyDateTime) (r : Row),
      r ∈ (ContextFactsStore.upsert_fact s f t).rows →
      ((r.valid_to = none ∧ identTuple r = factIdent f) ↔
        r = ContextFactsStore.newRow s f t.isoformat)) := by
  constructor
  · intro s hreach
    induction hreach with
    | init => exact List.Pairwise.nil
    | upsert s f t _ ih =>
      show ((s.rows.map (ContextFactsStore.closeRow t.isoformat f)) ++
        [ContextFactsStore.newRow s f t.isoformat]).Pairwise _
      rw [List.pairwise_append]
      refine ⟨List.Pairwise.map _ ?_ ih, by simp, ?_⟩
      · intro a b hab h1 h2
        rcases closeRow_active_inv h1 with ⟨ea, va⟩
        rcases closeRow_active_inv h2 with ⟨eb, vb⟩
        rw [closeRow_identTuple, closeRow_identTuple]
        exact hab va vb
      · intro a ha b hb h1 h2 hcontra
        rcases List.mem_map.mp ha with ⟨r0, _, rfl⟩
        rcases closeRow_active_inv h1 with ⟨heq, hv0⟩
        have hb' : b = ContextFactsStore.newRow s f t.isoformat := by
          simpa using hb
        have hid : identTuple r0 = factIdent f := by
          rw [← closeRow_identTuple t.isoformat f r0, hcontra, hb', identTuple_newRow]
        have hclosed := @closeRow_of_active_match t.isoformat f r0 hv0 hid
        rw [heq] at hclosed
        have : r0.valid_to = some t.isoformat := by
          conv_lhs => rw [hclosed]
        rw [hv0] at this
        cases this
  · intro s f t r hmem
    constructor
    · rintro ⟨hvt, hid⟩
      rcases List.mem_append.mp hmem with hl | hr
      · exfalso
        rcases List.mem_map.mp hl with ⟨r0, _, rfl⟩
        rcases closeRow_active_inv hvt with ⟨heq, hv0⟩
        rw [closeRow_identTuple] at hid
        have hclosed := @closeRow_of_active_match t.isoformat f r0 hv0 hid
        rw [heq] at hclosed
        have : r0.valid_to = some t.isoformat := by
          conv_lhs => rw [hclosed]
        rw [hv0] at this
        cases this
      · simpa using hr
    · rintro rfl
      exact ⟨rfl, identTuple_newRow s f t.isoformat⟩

/-- C3: a record closed out by a superseding `upsert_fact` call ends up in
the new state with `valid_to` set to the call's effective time, and that
value is exactly the `valid_from` of the superseding (newly inserted)
record. -/
theorem superseded_valid_to_eq_superseder_valid_from
    (s : StoreState) (f : ContextFact) (t : PyDateTime) (r : Row)
    (hmem : r ∈ s.rows) (hact : r.valid_to = none) (hid : identTuple r = factIdent f) :
    ({ r with valid_to := some t.isoformat } ∈ (ContextFactsStore.upsert_fact s f t).rows) ∧
    (ContextFactsStore.newRow s f t.isoformat).valid_from = t.isoformat ∧
    ({ r with valid_to := some t.isoformat } : Row).valid_to =
      some (ContextFactsStore.newRow s f t.isoformat).valid_from := by
  refine ⟨?_, rfl, rfl⟩
  show _ ∈ s.rows.map (ContextFactsStore.closeRow t.isoformat f) ++ [_]
  apply List.mem_append_left
  rw [← closeRow_of_active_match hact hid]
  exact List.mem_map_of_mem _ hmem

theorem superseded_valid_to_eq_superseder_valid_from_witness :
    (ContextFactsStore.newRow ContextFactsStore.init factA tW1.isoformat ∈ stW1.rows ∧
      (ContextFactsStore.newRow ContextFactsStore.init factA tW1.isoformat).valid_to = none ∧
      identTuple (ContextFactsStore.newRow ContextFactsStore.init factA tW1.isoformat) =
        factIdent factB) ∧
    (({ ContextFactsStore.newRow ContextFactsStore.init factA tW1.isoformat with
          valid_to := some tW2.isoformat } ∈
        (ContextFactsStore.upsert_fact stW1 factB tW2).rows) ∧
      (ContextFactsStore.newRow stW1 factB tW2.isoformat).valid_from = tW2.isoformat ∧
      ({ ContextFactsStore.newRow ContextFactsStore.init factA tW1.isoformat with
          valid_to := some tW2.isoformat } : Row).valid_to =
        some (ContextFactsStore.newRow stW1 factB tW2.isoformat).valid_from) :=
  ⟨⟨by simp [stW1, ContextFactsStore.upsert_fact, ContextFactsStore.init], rfl, rfl⟩,
    superseded_valid_to_eq_superseder_valid_from stW1 factB tW2 _
      (by simp [stW1, ContextFactsStore.upsert_fact, ContextFactsStore.init]) rfl rfl⟩

theorem closeRow_cases (ts : String) (f : ContextFact) (r : Row) :
    ContextFactsStore.closeRow ts f r = r ∨
      (r.valid_to = none ∧
        ContextFactsStore.closeRow ts f r = { r with valid_to := some ts }) := by
  unfold ContextFactsStore.closeRow
  by_cases hc : (r.valid_to == none && ContextFactsStore.sameIdentity r f) = true
  · refine Or.inr ⟨?_, if_pos hc⟩
    rcases Bool.and_eq_true .. |>.mp hc with ⟨h1, _⟩
    exact beq_iff_eq.mp h1
  · exact Or.inl (if_neg hc)

theorem closeRow_of_closed {ts : String} {f : ContextFact} {r : Row}
    (h : r.valid_to ≠ none) : ContextFactsStore.closeRow ts f r = r := by
  rcases closeRow_cases ts f r with he | ⟨hn, _⟩
  · exact he
  · exact absurd hn h

/-- C9: across every sequence of store write operations, a record whose
`valid_to` has been set is never modified again and no record is ever
deleted: every pre-existing record survives with all its fields intact
except, at most, a single close-out write turning a NULL `valid_to` into a
timestamp. -/
theorem records_immutable_never_deleted (s s' : StoreState) (h : Reaches s s') :
    ∀ r ∈ s.rows,
      (r.valid_to ≠ none → r ∈ s'.rows) ∧
      (∃ r' ∈ s'.rows, r'.id = r.id ∧ r'.category = r.category ∧ r'.detail = r.detail ∧
        r'.time_range = r.time_range ∧ r'.location = r.location ∧
        r'.confidence = r.confidence ∧ r'.source_capture_id = r.source_capture_id ∧
        r'.valid_from = r.valid_from ∧
        (r'.valid_to = r.valid_to ∨ (r.valid_to = none ∧ ∃ ts, r'.valid_to = some ts))) := by
  induction h with
  | refl =>
    intro r hr
    exact ⟨fun _ => hr, ⟨r, hr, rfl, rfl, rfl, rfl, rfl, rfl, rfl, rfl, Or.inl rfl⟩⟩
  | upsert s2 f t _ ih =>
    intro r hrmem
    obtain ⟨hkeep, r', hr'mem, hk1, hk2, hk3, hk4, hk5, hk6, hk7, hk8, hdisj⟩ := ih r hrmem
    constructor
    · intro hne
      have hrs2 : r ∈ s2.rows := hkeep hne
      show r ∈ s2.rows.map (ContextFactsStore.closeRow t.isoformat f) ++ [_]
      apply List.mem_append_left
      rw [← @closeRow_of_closed t.isoformat f r hne]
      exact List.mem_map_of_mem _ hrs2
    · refine ⟨ContextFactsStore.closeRow t.isoformat f r', ?_, ?_⟩
      · show _ ∈ s2.rows.map (ContextFactsStore.closeRow t.isoformat f) ++ [_]
        exact List.mem_append_left _ (List.mem_map_of_mem _ hr'mem)
      · rcases closeRow_cases t.isoformat f r' with he | ⟨hvnone, hset⟩
        · rw [he]
          exact ⟨hk1, hk2, hk3, hk4, hk5, hk6, hk7, hk8, hdisj⟩
        · rw [hset]
          refine ⟨hk1, hk2, hk3, hk4, hk5, hk6, hk7, hk8, Or.inr ⟨?_, t.isoformat, rfl⟩⟩
          rcases hdisj with he2 | ⟨hn2, _⟩
          · rw [← he2, hvnone]
          · exact hn2

theorem records_immutable_never_deleted_witness :
    Reaches stW1 stW2 ∧
    (ContextFactsStore.newRow ContextFactsStore.init factA tW1.isoformat ∈ stW1.rows) ∧
    (((ContextFactsStore.newRow ContextFactsStore.init factA tW1.isoformat).valid_to ≠ none →
        ContextFactsStore.newRow ContextFactsStore.init factA tW1.isoformat ∈ stW2.rows) ∧
      (∃ r' ∈ stW2.rows,
        r'.id = (ContextFactsStore.newRow ContextFactsStore.init factA tW1.isoformat).id ∧
        r'.category = (ContextFactsStore.newRow ContextFactsStore.init factA tW1.isoformat).category ∧
        r'.detail = (ContextFactsStore.newRow ContextFactsStore.init factA tW1.isoformat).detail ∧
        r'.time_range = (ContextFactsStore.newRow ContextFactsStore.init factA tW1.isoformat).time_range ∧
        r'.location = (ContextFactsStore.newRow ContextFactsStore.init factA tW1.isoformat).location ∧
        r'.confidence = (ContextFactsStore.newRow ContextFactsStore.init factA tW1.isoformat).confidence ∧
        r'.source_capture_id = (ContextFactsStore.newRow ContextFactsStore.init factA tW1.isoformat).source_capture_id ∧
        r'.valid_from = (ContextFactsStore.newRow ContextFactsStore.init factA tW1.isoformat).valid_from ∧
        (r'.valid_to = (ContextFactsStore.newRow ContextFactsStore.init factA tW1.isoformat).valid_to ∨
          ((ContextFactsStore.newRow ContextFactsStore.init factA tW1.isoformat).valid_to = none ∧
            ∃ ts, r'.valid_to = some ts)))) :=
  ⟨Reaches.upsert stW1 stW1 factB tW2 (Reaches.refl stW1),
   by simp [stW1, ContextFactsStore.upsert_fact, ContextFactsStore.init],
   records_immutable_never_deleted stW1 stW2
     (Reaches.upsert stW1 stW1 factB tW2 (Reaches.refl stW1)) _
     (by simp [stW1, ContextFactsStore.upsert_fact, ContextFactsStore.init])⟩

/-- C4: `upsert_many` applies `upsert_fact` to each fact in the given order
with the one shared effective time, and is not atomic as a whole: when the
k-th per-fact transaction fails, the committed state is exactly the one the
first k-1 upserts produced. -/
theorem upsert_many_in_order_not_atomic :
    (∀ (s : StoreState) (f : ContextFact) (facts : List ContextFact) (t : PyDateTime),
      ContextFactsStore.upsert_many s [] t = s ∧
      ContextFactsStore.upsert_many s (f :: facts) t =
        ContextFactsStore.upsert_many (ContextFactsStore.upsert_fact s f t) facts t) ∧
    (∀ (s : StoreState) (pairs : List (ContextFact × Bool)) (t : PyDateTime),
      (∀ p ∈ pairs, p.2 = false) →
      upsert_many_run s pairs t = (ContextFactsStore.upsert_many s (pairs.map Prod.fst) t, false)) ∧
    (∀ (s : StoreState) (pre : List (ContextFact × Bool)) (f : ContextFact)
        (post : List (ContextFact × Bool)) (t : PyDateTime),
      (∀ p ∈ pre, p.2 = false) →
      upsert_many_run s (pre ++ (f, true) :: post) t =
        (ContextFactsStore.upsert_many s (pre.map Prod.fst) t, true)) := by
  refine ⟨fun s f facts t => ⟨rfl, rfl⟩, ?_, ?_⟩
  · intro s pairs t hok
    induction pairs generalizing s with
    | nil => rfl
    | cons p rest ih =>
      obtain ⟨f, b⟩ := p
      have hb : b = false := hok (f, b) (List.mem_cons_self _ _)
      subst hb
      show upsert_many_run (ContextFactsStore.upsert_fact s f t) rest t = _
      rw [ih _ fun q hq => hok q (List.mem_cons_of_mem _ hq)]
      rfl
  · intro s pre f post t hok
    induction pre generalizing s with
    | nil => rfl
    | cons p rest ih =>
      obtain ⟨g, b⟩ := p
      have hb : b = false := hok (g, b) (List.mem_cons_self _ _)
      subst hb
      show upsert_many_run (ContextFactsStore.upsert_fact s g t) (rest ++ (f, true) :: post) t = _
      rw [ih _ fun q hq => hok q (List.mem_cons_of_mem _ hq)]
      rfl

theorem upsert_many_in_order_not_atomic_witness :
    (∀ p ∈ [(factA, false)], p.2 = false) ∧
    upsert_many_run ContextFactsStore.init [(factA, false), (factB, true)] tW1 =
      (ContextFactsStore.upsert_many ContextFactsStore.init
        ([(factA, false)].map Prod.fst) tW1, true) :=
  ⟨by decide,
   upsert_many_in_order_not_atomic.2.2 ContextFactsStore.init [(factA, false)] factB [] tW1
     (by decide)⟩

/-- C7: for every reference time, `agenda_overview` returns exactly the
subset of the `get_active_facts` result whose category lies in the fixed set
`{"schedule", "availability", "agenda", "reminder"}`, and `active_schedule`
returns exactly the subset whose category equals `"schedule"`. -/
theorem resolver_category_filters (s : StoreState) (t : PyDateTime)
    (facts : List ContextFact)
    (h : ContextFactsStore.get_active_facts s t = .ok facts) :
    AgendaResolver.active_schedule s t =
      .ok (facts.filter (fun f => f.category == "schedule")) ∧
    (∀ f : ContextFact, f ∈ facts.filter (fun f => f.category == "schedule") ↔
      (f ∈ facts ∧ f.category = "schedule")) ∧
    AgendaResolver.agenda_overview s t =
      .ok (facts.filter (fun f => AgendaResolver.agendaCategories.contains f.category)) ∧
    (∀ f : ContextFact,
      f ∈ facts.filter (fun f => AgendaResolver.agendaCategories.contains f.category) ↔
      (f ∈ facts ∧ f.category ∈ AgendaResolver.agendaCategories)) := by
  refine ⟨?_, ?_, ?_, ?_⟩
  · unfold AgendaResolver.active_schedule
    rw [h]
    rfl
  · intro f
    rw [List.mem_filter]
    simp
  · unfold AgendaResolver.agenda_overview
    rw [h]
    rfl
  · intro f
    rw [List.mem_filter]
    simp

theorem resolver_category_filters_witness :
    ContextFactsStore.get_active_facts resolverStW tW3 = .ok resolverFactsW ∧
    (AgendaResolver.active_schedule resolverStW tW3 =
        .ok (resolverFactsW.filter (fun f => f.category == "schedule")) ∧
      (∀ f : ContextFact, f ∈ resolverFactsW.filter (fun f => f.category == "schedule") ↔
        (f ∈ resolverFactsW ∧ f.category = "schedule")) ∧
      AgendaResolver.agenda_overview resolverStW tW3 =
        .ok (resolverFactsW.filter
          (fun f => AgendaResolver.agendaCategories.contains f.category)) ∧
      (∀ f : ContextFact,
        f ∈ resolverFactsW.filter
          (fun f => AgendaResolver.agendaCategories.contains f.category) ↔
        (f ∈ resolverFactsW ∧ f.category ∈ AgendaResolver.agendaCategories))) :=
  ⟨by rfl, resolver_category_filters resolverStW tW3 resolverFactsW (by rfl)⟩

theorem upsert_unique_active_witness :
    ActiveUnique (ContextFactsStore.upsert_fact ContextFactsStore.init factA tW1) ∧
    (ContextFactsStore.newRow stW1 factB tW2.isoformat ∈ stW2.rows ∧
      (((ContextFactsStore.newRow stW1 factB tW2.isoformat).valid_to = none ∧
        identTuple (ContextFactsStore.newRow stW1 factB tW2.isoformat) = factIdent factB) ↔
        ContextFactsStore.newRow stW1 factB tW2.isoformat =
          ContextFactsStore.newRow stW1 factB tW2.isoformat)) :=
  ⟨upsert_unique_active.1 _ (Reachable.upsert _ _ _ Reachable.init),
   by simp [stW2, ContextFactsStore.upsert_fact],
   upsert_unique_active.2 stW1 factB tW2 _ (by simp [stW2, ContextFactsStore.upsert_fact])⟩

theorem exceptBindErr {α β : Type} {x : Except PyErr α} {f : α → Except PyErr β} {e : PyErr}
    (h : (x >>= f) = .error e) : x = .error e ∨ ∃ a, x = .ok a ∧ f a = .error e := by
  cases x with
  | error e' =>
    have h2 : (Except.error e' : Except PyErr β) = .error e := h
    injection h2 with he
    exact Or.inl (by rw [he])
  | ok a => exact Or.inr ⟨a, rfl, h⟩

theorem exceptBindOk {α β : Type} {x : Except PyErr α} {f : α → Except PyErr β} {b : β}
    (h : (x >>= f) = .ok b) : ∃ a, x = .ok a ∧ f a = .ok b := by
  cases x with
  | error e =>
    exact absurd (show (Except.error e : Except PyErr β) = .ok b from h) (by simp)
  | ok a => exact ⟨a, rfl, h⟩

theorem exceptBindErrEq {α β : Type} (e : PyErr) (f : α → Except PyErr β) :
    ((Except.error e : Except PyErr α) >>= f) = .error e := rfl

theorem exceptBindOkEq {α β : Type} (a : α) (f : α → Except PyErr β) :
    ((Except.ok a : Except PyErr α) >>= f) = f a := rfl

theorem pyGetItem_err_structural {v k : PyVal} {e : PyErr}
    (h : pyGetItem v k = .error e) : GeminiFactExtractor.isStructuralErr e = true := by
  cases v <;> cases k <;> simp only [pyGetItem] at h
  all_goals try split at h
  all_goals try split at h
  all_goals try simp only [Except.error.injEq] at h
  all_goals try subst h
  all_goals try rfl
  all_goals exact absurd h (by simp)

theorem extract_text_attempt_err {payload : PyVal} {e : PyErr}
    (h : GeminiFactExtractor.extract_text_attempt payload = .error e) :
    GeminiFactExtractor.isStructuralErr e = true := by
  unfold GeminiFactExtractor.extract_text_attempt at h
  rcases exceptBindErr h with h1 | ⟨v1, _, h⟩
  · exact pyGetItem_err_structural h1
  rcases exceptBindErr h with h2 | ⟨v2, _, h⟩
  · exact pyGetItem_err_structural h2
  rcases exceptBindErr h with h3 | ⟨v3, _, h⟩
  · exact pyGetItem_err_structural h3
  rcases exceptBindErr h with h4 | ⟨v4, _, h⟩
  · exact pyGetItem_err_structural h4
  rcases exceptBindErr h with h5 | ⟨v5, _, h⟩
  · exact pyGetItem_err_structural h5
  exact pyGetItem_err_structural h

/-- C5: whenever the response payload lacks the
`candidates[0].content.parts[0].text` path or some structure along that path
has the wrong shape (so the subscription chain raises), `extract` fails with
the dedicated malformed-response error — the spec's `MalformedResponseError` —
and not with one of the raw structural exceptions it caught. -/
theorem extract_malformed_raises_malformed_response
    (payload : PyVal) (cid : String) (t : PyDateTime) (e : PyErr)
    (h : GeminiFactExtractor.extract_text_attempt payload = .error e) :
    GeminiFactExtractor.extract payload cid t =
      .error GeminiFactExtractor.MalformedResponseError ∧
    GeminiFactExtractor.isStructuralErr GeminiFactExtractor.MalformedResponseError = false := by
  have hs : GeminiFactExtractor.extract_text payload =
      .error GeminiFactExtractor.MalformedResponseError := by
    unfold GeminiFactExtractor.extract_text
    rw [h]
    simp [extract_text_attempt_err h]
  refine ⟨?_, rfl⟩
  simp [GeminiFactExtractor.extract, hs, exceptBindErrEq]

theorem extract_malformed_raises_malformed_response_witness :
    GeminiFactExtractor.extract_text_attempt (PyVal.dict []) =
      .error (PyErr.keyError "candidates") ∧
    (GeminiFactExtractor.extract (PyVal.dict []) "cap-1" tW1 =
        .error GeminiFactExtractor.MalformedResponseError ∧
      GeminiFactExtractor.isStructuralErr GeminiFactExtractor.MalformedResponseError = false) :=
  ⟨rfl, extract_malformed_raises_malformed_response (PyVal.dict []) "cap-1" tW1
    (PyErr.keyError "candidates") rfl⟩

/-- C10: when the response envelope is well-formed (the inner text is a
string) and that text parses as a JSON object with no `facts` key, `extract`
returns the empty fact list without error (`parsed.get("facts", [])` yields
the empty list). -/
theorem extract_no_facts_key_returns_empty
    (payload : PyVal) (cid : String) (t : PyDateTime) (text : String)
    (kvs : List (String × PyVal))
    (h1 : GeminiFactExtractor.extract_text payload = .ok (.str text))
    (h2 : jsonLoads text = .ok (.dict kvs))
    (h3 : pyDictGet kvs "facts" = none) :
    GeminiFactExtractor.extract payload cid t = .ok [] := by
  have h3' : List.lookup "facts" kvs = none := h3
  have hfp : pyDictGetD kvs "facts" (PyVal.list []) = PyVal.list [] := by
    unfold pyDictGetD
    rw [h3']
    rfl
  simp [GeminiFactExtractor.extract, h1, h2, hfp, exceptBindErrEq, exceptBindOkEq]
  rfl

theorem extract_no_facts_key_returns_empty_witness :
    GeminiFactExtractor.extract_text c10payload = .ok (.str "\x7b\"note\": 1\x7d") ∧
    jsonLoads "\x7b\"note\": 1\x7d" = .ok (.dict [("note", .int 1)]) ∧
    pyDictGet [("note", PyVal.int 1)] "facts" = none ∧
    GeminiFactExtractor.extract c10payload "cap-1" tW1 = .ok [] :=
  ⟨rfl, rfl, rfl,
    extract_no_facts_key_returns_empty c10payload "cap-1" tW1 "\x7b\"note\": 1\x7d"
      [("note", PyVal.int 1)] rfl rfl rfl⟩

/-- C6 (amended): `from_dict` defaults a missing `category` to
`"unspecified"`, a missing `detail` to the empty string and a missing
`confidence` to `0.0`, and coerces `confidence` through the `float(...)`
built-in; when that coercion fails, the constructor fails by propagating the
raw coercion error (`TypeError`/`ValueError`), the source defining no
dedicated `ValidationError`. -/
theorem from_dict_defaults_and_raw_coercion_error
    (payload : List (String × PyVal)) (cid : String) (ts : Option PyDateTime) :
    (∀ f : ContextFact, ContextFact.from_dict payload cid ts = .ok f →
      ((pyDictGet payload "category" = none → f.category = "unspecified") ∧
       (pyDictGet payload "detail" = none → f.detail = "") ∧
       (pyDictGet payload "confidence" = none → f.confidence = 0) ∧
       pyFloat (pyDictGetD payload "confidence" (.float 0)) = .ok f.confidence ∧
       f.source_capture_id = cid ∧ f.valid_from = ts)) ∧
    (∀ (e : PyErr) (c d : String) (tr loc : Option String),
      ContextFact.asStrField (pyDictGetD payload "category" (.str "unspecified")) = .ok c →
      ContextFact.asStrField (pyDictGetD payload "detail" (.str "")) = .ok d →
      ContextFact.asOptStrField (pyDictGet payload "time_range") = .ok tr →
      ContextFact.asOptStrField (pyDictGet payload "location") = .ok loc →
      pyFloat (pyDictGetD payload "confidence" (.float 0)) = .error e →
      ContextFact.from_dict payload cid ts = .error e) := by
  constructor
  · intro f hok
    unfold ContextFact.from_dict at hok
    rcases exceptBindOk hok with ⟨c, hc, hok⟩
    rcases exceptBindOk hok with ⟨d, hd, hok⟩
    rcases exceptBindOk hok with ⟨tr, htr, hok⟩
    rcases exceptBindOk hok with ⟨loc, hloc, hok⟩
    rcases exceptBindOk hok with ⟨conf, hconf, hok⟩
    injection hok with hrec
    subst hrec
    refine ⟨?_, ?_, ?_, ?_, rfl, rfl⟩
    · intro hnone
      have hnone' : List.lookup "category" payload = none := hnone
      rw [pyDictGetD, hnone'] at hc
      have : (Except.ok "unspecified" : Except PyErr String) = Except.ok c := hc
      injection this with h'
      exact h'.symm
    · intro hnone
      have hnone' : List.lookup "detail" payload = none := hnone
      rw [pyDictGetD, hnone'] at hd
      have : (Except.ok "" : Except PyErr String) = Except.ok d := hd
      injection this with h'
      exact h'.symm
    · intro hnone
      have hnone' : List.lookup "confidence" payload = none := hnone
      rw [pyDictGetD, hnone'] at hconf
      have : (Except.ok 0 : Except PyErr Rat) = Except.ok conf := hconf
      injection this with h'
      exact h'.symm
    · exact hconf
  · intro e c d tr loc h1 h2 h3 h4 h5
    unfold ContextFact.from_dict
    show ((ContextFact.asStrField (pyDictGetD payload "category" (.str "unspecified"))) >>= _) = _
    rw [h1]
    show ((ContextFact.asStrField (pyDictGetD payload "detail" (.str ""))) >>= _) = _
    rw [h2]
    show ((ContextFact.asOptStrField (pyDictGet payload "time_range")) >>= _) = _
    rw [h3]
    show ((ContextFact.asOptStrField (pyDictGet payload "location")) >>= _) = _
    rw [h4]
    show ((pyFloat (pyDictGetD payload "confidence" (.float 0))) >>= _) = _
    rw [h5]
    rfl

theorem from_dict_defaults_and_raw_coercion_error_witness :
    ContextFact.asStrField (pyDictGetD c6payload "category" (.str "unspecified")) =
      .ok "schedule" ∧
    ContextFact.asStrField (pyDictGetD c6payload "detail" (.str "")) = .ok "On call" ∧
    ContextFact.asOptStrField (pyDictGet c6payload "time_range") = .ok none ∧
    ContextFact.asOptStrField (pyDictGet c6payload "location") = .ok none ∧
    pyFloat (pyDictGetD c6payload "confidence" (.float 0)) =
      .error (PyErr.typeError "float() argument must be a string or a real number, not NoneType") ∧
    ContextFact.from_dict c6payload "cap-1" Option.none =
      .error (PyErr.typeError "float() argument must be a string or a real number, not NoneType") :=
  ⟨rfl, rfl, rfl, rfl, rfl,
    (from_dict_defaults_and_raw_coercion_error c6payload "cap-1" Option.none).2
      (PyErr.typeError "float() argument must be a string or a real number, not NoneType")
      "schedule" "On call" none none rfl rfl rfl rfl rfl⟩

/-- C6 counterexample: at a concrete payload whose `confidence` is Python
`None`, the coercion fails and the constructor fails — but with the raw
built-in `TypeError` from `float(None)`, not with any dedicated
`ValidationError` kind, refuting the claim as stated. -/
theorem from_dict_validation_error_counterexample :
    ContextFact.from_dict c6payload "cap-1" Option.none =
      .error (PyErr.typeError "float() argument must be a string or a real number, not NoneType") ∧
    resultHasValidationError (ContextFact.from_dict c6payload "cap-1" Option.none) = false :=
  ⟨rfl, rfl⟩

theorem isoformat_lexical_agrees_with_chronological_witness :
    (PyDateTime.mk 2024 1 1 9 0 0 0).Valid ∧ (PyDateTime.mk 2024 1 1 9 0 0 500000).Valid ∧
      (pyStrLt (PyDateTime.mk 2024 1 1 9 0 0 0).isoformat
          (PyDateTime.mk 2024 1 1 9 0 0 500000).isoformat =
        dtLt (PyDateTime.mk 2024 1 1 9 0 0 0) (PyDateTime.mk 2024 1 1 9 0 0 500000) ∧
       pyStrLe (PyDateTime.mk 2024 1 1 9 0 0 0).isoformat
          (PyDateTime.mk 2024 1 1 9 0 0 500000).isoformat =
        dtLe (PyDateTime.mk 2024 1 1 9 0 0 0) (PyDateTime.mk 2024 1 1 9 0 0 500000)) :=
  ⟨by decide, by decide,
    isoformat_lexical_agrees_with_chronological _ _ (by decide) (by decide)⟩

end Loop
